import Mathlib

/-!
# Survey engine verification

A shallow embedding of the survey engine of the onstage-survey-app repository:
the response store and navigation state machine (`surveyData.js`), the
conditional-question rule evaluator (`conditionEvaluator.js`), and the
pre-advance validation of the navigation layer (`surveyNavigation.js`).

JavaScript values flowing through the engine (response values, condition
values, operator strings, identity claims) are modelled by the inductive
`JSValue`. Numbers are modelled as integers: no claim under consideration
depends on fractional or special floating-point values, and the places where
the source parses numbers (`parseFloat`, `parseInt`) are modelled on integer
prefixes with that restriction noted locally. Statements that can raise a
`TypeError` in JavaScript (property access on `null`/`undefined`) are modelled
in the `Except Unit` monad; all other engine code is total and is modelled by
plain functions, mirroring the source's return-boolean error style.
-/

/-- A JavaScript value as it occurs in the survey engine's data flow. -/
inductive JSValue where
  | null
  | undefined
  | bool (b : Bool)
  | num (n : Int)
  | str (s : String)
  | arr (elems : List JSValue)
  | obj (fields : List (String × JSValue))

/-- JavaScript truthiness: `null`, `undefined`, `false`, `0` and the empty
string are falsy; every array and object is truthy. -/
def truthy : JSValue → Bool
  | .null => false
  | .undefined => false
  | .bool b => b
  | .num n => n != 0
  | .str s => s != ""
  | .arr _ => true
  | .obj _ => true

/-- Strict equality `===` between the operand positions that occur in the
evaluator: primitives compare structurally; an array or object operand
compares by reference, and since the two operands always come from distinct
allocations (the response store versus the condition object) the comparison
is `false` whenever either side is an array or object. -/
def jsEq : JSValue → JSValue → Bool
  | .null, .null => true
  | .undefined, .undefined => true
  | .bool a, .bool b => a == b
  | .num a, .num b => a == b
  | .str a, .str b => a == b
  | _, _ => false

/-- `typeof v === 'object'`: true for `null`, arrays and objects. -/
def typeofIsObject : JSValue → Bool
  | .null => true
  | .arr _ => true
  | .obj _ => true
  | _ => false

/-- The property key a JavaScript value coerces to when used in bracket
access, for the value shapes that reach such positions in the evaluator. -/
def jsKeyOf : JSValue → String
  | .str s => s
  | .num n => toString n
  | .bool b => toString b
  | .null => "null"
  | .undefined => "undefined"
  | _ => "objectKey"

/-- Property access `v[key]`: throws a `TypeError` on `null` and `undefined`,
yields the field of an object (or `undefined` when absent), and `undefined`
on every other receiver. Numeric index access into arrays does not occur on
the evaluator's paths and is modelled as `undefined`. -/
def getField (v : JSValue) (key : String) : Except Unit JSValue :=
  match v with
  | .null => .error ()
  | .undefined => .error ()
  | .obj fields =>
      match fields.lookup key with
      | some w => .ok w
      | none => .ok .undefined
  | _ => .ok .undefined

/-- Whether a string consists of whitespace only, i.e. `s.trim() === ''`
in the source's blank-string checks. -/
def isBlank (s : String) : Bool :=
  s.data.all Char.isWhitespace

/-- Loose equality `responseValue == condition.optionId` for a string
response value; the engine only compares scalar option identifiers, the
string/string case, here. -/
def jsLooseEqStr (s : String) : JSValue → Bool
  | .str t => s == t
  | .num n => s == toString n
  | _ => false

/-- `parseFloat` as applied to a response value. Integer-valued numbers and
integer-prefixed strings are modelled; fractional parts and stringified
array coercions lie outside the model (no claim depends on them) and yield
`none` (`NaN`). -/
def jsParseFloat : JSValue → Option Int
  | .num n => some n
  | .str s =>
      match s.data.dropWhile Char.isWhitespace with
      | '-' :: rest =>
          let ds := rest.takeWhile Char.isDigit
          if ds.isEmpty then none
          else some (-(ds.foldl (fun a c => a * 10 + (c.toNat - 48)) 0 : Int))
      | cs =>
          let ds := cs.takeWhile Char.isDigit
          if ds.isEmpty then none
          else some ((ds.foldl (fun a c => a * 10 + (c.toNat - 48)) 0 : Int))
  | _ => none

/-- `parseInt(s, 10)`: skip whitespace, optional sign, then a maximal digit
prefix; `none` models `NaN` (no digits). -/
def parseIntJS (s : String) : Option Int :=
  match s.data.dropWhile Char.isWhitespace with
  | '-' :: rest =>
      let ds := rest.takeWhile Char.isDigit
      if ds.isEmpty then none
      else some (-(ds.foldl (fun a c => a * 10 + (c.toNat - 48)) 0 : Int))
  | '+' :: rest =>
      let ds := rest.takeWhile Char.isDigit
      if ds.isEmpty then none
      else some ((ds.foldl (fun a c => a * 10 + (c.toNat - 48)) 0 : Int))
  | cs =>
      let ds := cs.takeWhile Char.isDigit
      if ds.isEmpty then none
      else some ((ds.foldl (fun a c => a * 10 + (c.toNat - 48)) 0 : Int))

/-- `Object.entries` on the value shapes reaching the `topRanked` branch:
fields of an object, or index/element pairs of an array. -/
def entriesOf : JSValue → Option (List (String × JSValue))
  | .obj fields => some fields
  | .arr xs => some ((xs.enum).map fun p => (toString p.1, p.2))
  | _ => none

/-- The numeric value of a ranking position; the source's sort comparator
`b[1] - a[1]` is only meaningful for numeric positions, which is what the
producing renderer stores. -/
def jsNumVal : JSValue → Int
  | .num n => n
  | _ => 0

/-- `positions.sort((a, b) => b[1] - a[1]); positions[0]`: a stable
descending sort followed by taking the head returns the first entry (in
original order) attaining the maximal position. -/
def topEntry : List (String × JSValue) → Option (String × JSValue)
  | [] => none
  | p :: rest =>
      match topEntry rest with
      | none => some p
      | some q => if jsNumVal q.2 > jsNumVal p.2 then some q else some p

/-! ## Data model (`surveyData.js`, survey definition JSON schema) -/

/-- A recorded response: `{ value, comment?, timestamp }`. The comment key
is optional; `comment = some c` models the key being present with string
value `c`. -/
structure Response where
  value : JSValue
  comment : Option String
  timestamp : String

/-- One visibility rule: `{ questionId, type, value?, threshold?, optionId? }`.
Absent `value`/`optionId` keys are `JSValue.undefined`; the empty string stands
for an absent or empty (falsy) `questionId`/`type`. -/
structure ConditionRule where
  questionId : String
  ctype : String
  value : JSValue
  threshold : Option Int
  optionId : JSValue

/-- `{ operator, rules }`; the operator is an arbitrary JavaScript value,
defaulted by truthiness in `shouldShowQuestion`. -/
structure ConditionGroup where
  operator : JSValue
  rules : Option (List ConditionRule)

/-- The envelope fields of a question that the engine reads. -/
structure Question where
  id : String
  required : Bool
  conditions : Option ConditionGroup

/-- `{ id, questions }`; a step without a `questions` key is `none`. -/
structure Step where
  id : String
  questions : Option (List Question)

/-- `{ id, title, steps }`. -/
structure SurveyDefinition where
  id : JSValue
  title : JSValue
  steps : List Step

/-- The module-level `surveyState` of `surveyData.js`. -/
structure SurveyState where
  definition : Option SurveyDefinition
  currentStepIndex : Int
  responses : List (String × Response)
  isLoaded : Bool

/-- The initial module state: no definition, step 0, no responses. -/
def initialState : SurveyState :=
  { definition := none, currentStepIndex := 0, responses := [], isLoaded := false }

/-- The two durable local-storage slots. The responses slot holds the
outcome of `JSON.parse` on the stored string: `Except.error` models a parse
exception on corrupt storage, `Except.ok` a parsed response map. -/
structure Storage where
  stepSlot : Option String
  respSlot : Option (Except Unit (List (String × Response)))

/-- Keyed assignment `responses[questionId] = r`: overwrite in place if the
key exists, append otherwise. -/
def storeInsert (m : List (String × Response)) (k : String) (r : Response) :
    List (String × Response) :=
  if m.any (fun p => p.1 == k) then
    m.map (fun p => if p.1 == k then (k, r) else p)
  else
    m ++ [(k, r)]

/-! ## Response store and navigation operations (`surveyData.js`) -/

/-- The steps of the held definition ([] when none is loaded; every code
path reading steps is guarded by `isLoaded`, which is set only together with
a definition). -/
def stepsOf (s : SurveyState) : List Step :=
  match s.definition with
  | some d => d.steps
  | none => []

/-- `surveyState.definition.steps.length` as an integer. -/
def numSteps (s : SurveyState) : Int :=
  (stepsOf s).length

/-- `getResponse(questionId)`: the stored response or null. -/
def getResponse (s : SurveyState) (questionId : String) : Option Response :=
  s.responses.lookup questionId

/-- `getStepById(stepId)`. -/
def getStepById (s : SurveyState) (stepId : String) : Option Step :=
  if !s.isLoaded then none
  else (stepsOf s).find? (fun st => st.id == stepId)

/-- `getStepByIndex(index)`. -/
def getStepByIndex (s : SurveyState) (index : Int) : Option Step :=
  if !s.isLoaded then none
  else if index < 0 || index ≥ numSteps s then none
  else (stepsOf s).get? index.toNat

/-- `getCurrentStep()`. -/
def getCurrentStep (s : SurveyState) : Option Step :=
  getStepByIndex s s.currentStepIndex

/-- `goToStep(index)`: in-bounds check, then assignment; returns whether the
navigation happened together with the resulting state. The persistence side
effect writes the storage slots and does not alter engine state. -/
def goToStep (s : SurveyState) (index : Int) : Bool × SurveyState :=
  if !s.isLoaded || index < 0 || index ≥ numSteps s then (false, s)
  else (true, { s with currentStepIndex := index })

/-- `nextStep()`. -/
def nextStep (s : SurveyState) : Bool × SurveyState :=
  goToStep s (s.currentStepIndex + 1)

/-- `prevStep()`. -/
def prevStep (s : SurveyState) : Bool × SurveyState :=
  goToStep s (s.currentStepIndex - 1)

/-- The shared "is this value an answer" check of
`areAllRequiredQuestionsAnswered` and `validateCurrentStep`: not
null/undefined, not an empty array, not a blank string. -/
def isAnsweredValue : JSValue → Bool
  | .null => false
  | .undefined => false
  | .arr xs => !xs.isEmpty
  | .str t => !(isBlank t)
  | _ => true

/-- `areAllRequiredQuestionsAnswered(stepId)`. -/
def areAllRequiredQuestionsAnswered (s : SurveyState) (stepId : String) : Bool :=
  match getStepById s stepId with
  | none => true
  | some st =>
      match st.questions with
      | none => true
      | some qs =>
          (qs.filter (fun q => q.required)).all fun q =>
            match getResponse s q.id with
            | none => false
            | some r => isAnsweredValue r.value

/-- `saveResponse(questionId, value, comment)`: fails when no survey is
loaded; overwrites the response, stamping the supplied timestamp; the
comment key is added only when the argument is non-null and non-blank. -/
def saveResponse (s : SurveyState) (questionId : String) (v : JSValue)
    (comment : Option String) (now : String) : Bool × SurveyState :=
  if !s.isLoaded then (false, s)
  else
    let c : Option String :=
      match comment with
      | some t => if isBlank t then none else some t
      | none => none
    let r : Response := { value := v, comment := c, timestamp := now }
    (true, { s with responses := storeInsert s.responses questionId r })

/-- `clearResponses()`. -/
def clearResponses (s : SurveyState) : SurveyState :=
  { s with responses := [], currentStepIndex := 0 }

/-- `restoreProgress()` reading the two storage slots inside one
`try`/`catch`: the step slot is adopted first (only when it parses to an
in-bounds integer for the held definition), then the responses slot is
parsed; a parse exception is caught after the step adoption has already
happened and leaves the responses untouched. -/
def restoreStepSlot (s : SurveyState) (st : Storage) : SurveyState :=
  match st.stepSlot with
  | none => s
  | some txt =>
      match parseIntJS txt with
      | none => s
      | some k =>
          if 0 ≤ k && s.definition.isSome && k < numSteps s then
            { s with currentStepIndex := k }
          else s

def restoreProgress (s : SurveyState) (st : Storage) : SurveyState :=
  match st.respSlot with
  | none => restoreStepSlot s st
  | some (.ok m) => { restoreStepSlot s st with responses := m }
  | some (.error _) => restoreStepSlot s st

/-- `loadSurveyDefinition(surveyPath)` after a successful fetch and JSON
parse of the definition `d`: store the definition, mark loaded, then
restore any saved progress from storage. -/
def loadSurveyDefinition (s : SurveyState) (d : SurveyDefinition) (st : Storage) :
    SurveyState :=
  restoreProgress { s with definition := some d, isLoaded := true } st

/-- The identity token claims read by `submitSurvey`. -/
structure IdClaims where
  preferred_username : JSValue
  email : JSValue
  name : JSValue

/-- The submission payload handed to `dataService.saveUserData`. -/
structure Submission where
  surveyId : JSValue
  surveyTitle : JSValue
  completedAt : String
  responses : List (String × Response)
  username : JSValue

/-- `submitSurvey()`: throws when no survey is loaded or the response map is
empty; otherwise assembles the payload delegated to the external persistence
collaborator. The function reads but never writes the engine state. -/
def submitSurvey (s : SurveyState) (claims : Option IdClaims) (now : String) :
    Except Unit Submission :=
  if !s.isLoaded || s.responses.isEmpty then .error ()
  else
    let username : JSValue :=
      match claims with
      | none => .str "unknown"
      | some c =>
          if truthy c.preferred_username then c.preferred_username
          else if truthy c.email then c.email
          else if truthy c.name then c.name
          else .str "unknown"
    let d := s.definition.getD { id := .undefined, title := .undefined, steps := [] }
    .ok { surveyId := if truthy d.id then d.id else .str "unknown"
        , surveyTitle := d.title
        , completedAt := now
        , responses := s.responses
        , username := username }

/-! ## Condition evaluator (`conditionEvaluator.js`) -/

/-- The monadic any over `condition.optionId.some(o => responseValue[o] === true
|| responseValue === o)`: each bracket access may throw on a `null`/`undefined`
receiver. -/
def anyIdChecked (rv : JSValue) : List JSValue → Except Unit Bool
  | [] => .ok false
  | o :: rest =>
      match getField rv (jsKeyOf o) with
      | .error e => .error e
      | .ok f =>
          if jsEq f (.bool true) || jsEq rv o then .ok true
          else anyIdChecked rv rest

/-- `evaluateCondition(condition)`: one rule against the current response
store. An invalid rule (falsy `questionId` or `type`) and a missing response
for any type other than `answered` give `false`; the `answered`, `equals`,
`notEquals`, `contains`, `greaterThan`, `lessThan`, `topRanked`, and
`optionChecked` branches follow the source case by case, with property
accesses that can raise `TypeError` in the `Except` monad. -/
def evaluateCondition (resp : List (String × Response)) (c : ConditionRule) :
    Except Unit Bool :=
  if c.questionId == "" || c.ctype == "" then .ok false
  else
    let response := resp.lookup c.questionId
    if response.isNone && c.ctype != "answered" then .ok false
    else
      let rv : JSValue :=
        match response with
        | some r => r.value
        | none => .null
      match c.ctype with
      | "answered" =>
          .ok (response.isSome &&
               !(jsEq rv .null) && !(jsEq rv .undefined) &&
               (match rv with
                | .str t => !(isBlank t)
                | _ => true))
      | "equals" =>
          if typeofIsObject rv then
            match getField rv "isOther" with
            | .error e => .error e
            | .ok f => if truthy f then .ok false else .ok (jsEq rv c.value)
          else .ok (jsEq rv c.value)
      | "notEquals" => .ok (!(jsEq rv c.value))
      | "contains" =>
          match rv with
          | .arr xs => .ok (xs.any (fun x => jsEq x c.value))
          | .obj fields =>
              .ok (fields.any (fun p => jsEq (.str p.1) c.value && truthy p.2))
          | _ => .ok false
      | "greaterThan" =>
          match c.threshold with
          | none => .ok false
          | some t =>
              match jsParseFloat rv with
              | none => .ok false
              | some n => .ok (n > t)
      | "lessThan" =>
          match c.threshold with
          | none => .ok false
          | some t =>
              match jsParseFloat rv with
              | none => .ok false
              | some n => .ok (n < t)
      | "topRanked" =>
          if !truthy c.optionId then .ok false
          else
            match getField rv "value" with
            | .error e => .error e
            | .ok inner =>
                if !truthy inner then .ok false
                else
                  match entriesOf inner with
                  | some entries =>
                      if entries.length > 0 then
                        match topEntry entries with
                        | some p => .ok (jsEq (.str p.1) c.optionId)
                        | none => .ok false
                      else .ok false
                  | none => .ok false
      | "optionChecked" =>
          if !truthy c.optionId then .ok false
          else
            match c.optionId with
            | .arr ids => anyIdChecked rv ids
            | _ =>
                if truthy rv && typeofIsObject rv then
                  match getField rv (jsKeyOf c.optionId) with
                  | .error e => .error e
                  | .ok f => .ok (jsEq f (.bool true))
                else
                  match rv with
                  | .str t => .ok (jsLooseEqStr t c.optionId)
                  | _ => .ok false
      | _ => .ok false

/-- `shouldShowQuestion(question)`: no conditions, no rules key, or an empty
rule list show the question; otherwise every rule is evaluated (in order, so
an exception in any rule propagates) and combined by the operator, which
defaults to `and` when falsy and fails open to `true` when unrecognized. -/
def shouldShowQuestionE (resp : List (String × Response)) (q : Question) :
    Except Unit Bool :=
  match q.conditions with
  | none => .ok true
  | some cg =>
      match cg.rules with
      | none => .ok true
      | some [] => .ok true
      | some rules =>
          match rules.mapM (evaluateCondition resp) with
          | .error e => .error e
          | .ok results =>
              let op := if truthy cg.operator then cg.operator else .str "and"
              if jsEq op (.str "and") then .ok (results.all (fun r => r == true))
              else if jsEq op (.str "or") then .ok (results.any (fun r => r == true))
              else .ok true

/-! ## Pre-advance validation (`surveyNavigation.js`) -/

/-- `validateCurrentStep()`: every required question of the current step must
pass the answered check; the DOM error-marking side effects carry no engine
state. Note there is no visibility filtering here. -/
def validateCurrentStep (s : SurveyState) : Bool :=
  match getCurrentStep s with
  | none => true
  | some st =>
      match st.questions with
      | none => true
      | some qs =>
          (qs.filter (fun q => q.required)).all fun q =>
            match getResponse s q.id with
            | none => false
            | some r => isAnsweredValue r.value

/-- `handleNextStep()`: the Next action first validates the current step and
aborts on failure; otherwise it advances through `nextStep`. The returned
boolean records whether navigation occurred. -/
def handleNextStep (s : SurveyState) : Bool × SurveyState :=
  if !validateCurrentStep s then (false, s)
  else nextStep s

/-- Modelled from the spec: the validation gate of section 4.4, which the
source's `validateCurrentStep` does not implement — "callers must skip
validating required questions whose `shouldShowQuestion` is false, since a
hidden required question cannot be answered". A required question whose
evaluated visibility is `false` is skipped; visible required questions must
pass the same answered check as the source. -/
def validateCurrentStepSpec (s : SurveyState) : Bool :=
  match getCurrentStep s with
  | none => true
  | some st =>
      match st.questions with
      | none => true
      | some qs =>
          (qs.filter (fun q => q.required)).all fun q =>
            match shouldShowQuestionE s.responses q with
            | .ok false => true
            | _ =>
                match getResponse s q.id with
                | none => false
                | some r => isAnsweredValue r.value

/-! ## Invariants and store predicates -/

/-- A stored response whose comment key, when present, is non-blank. -/
def respOkB (p : String × Response) : Bool :=
  match p.2.comment with
  | none => true
  | some c => !(isBlank c)

/-- No stored response carries a present-but-blank comment key. -/
def noBlankComments (s : SurveyState) : Bool :=
  s.responses.all respOkB

/-- A response store whose stored values are never `null` or `undefined`
(the shapes on which every evaluator branch is exception-free). -/
def safeStore (resp : List (String × Response)) : Bool :=
  resp.all fun p =>
    match p.2.value with
    | .null => false
    | .undefined => false
    | _ => true

/-- Whether an evaluator call returned without throwing. -/
def evalOk (e : Except Unit Bool) : Bool :=
  match e with
  | .ok _ => true
  | .error _ => false

/-- The navigation well-formedness invariant of the loaded engine: a loaded
state holds a definition with a non-empty steps array and an in-bounds
current step index; an unloaded state still sits at index 0 with no
definition. -/
def stateWF (s : SurveyState) : Prop :=
  (s.isLoaded = false → s.currentStepIndex = 0 ∧ s.definition = none) ∧
  (s.isLoaded = true → ∃ d, s.definition = some d ∧ d.steps ≠ [] ∧
    0 ≤ s.currentStepIndex ∧ s.currentStepIndex < d.steps.length)

/-! ## Helper lemmas -/

lemma lookup_mem_pairs {l : List (String × Response)} {k : String} {r : Response}
    (h : l.lookup k = some r) : (k, r) ∈ l := by
  induction l with
  | nil => simp [List.lookup] at h
  | cons p tl ih =>
      rw [List.lookup] at h
      by_cases hk : k = p.1
      · rw [hk] at h
        simp at h
        subst hk
        rw [← h]
        exact List.mem_cons_self _ _
      · have : (k == p.1) = false := by simp [hk]
        rw [this] at h
        exact List.mem_cons_of_mem _ (ih h)

lemma lookup_map_replace (k : String) (r : Response) :
    ∀ m : List (String × Response), m.any (fun p => p.1 == k) = true →
      (m.map (fun p => if p.1 == k then (k, r) else p)).lookup k = some r := by
  intro m
  induction m with
  | nil => simp
  | cons p tl ih =>
      intro h
      by_cases hp : p.1 = k
      · have hb : (p.1 == k) = true := by simp [hp]
        simp only [List.map_cons]
        rw [if_pos hb]
        simp [List.lookup]
      · have hb : (p.1 == k) = false := by simp [hp]
        simp only [List.any_cons, hb, Bool.false_or] at h
        have hk : (k == p.1) = false := by simp [Ne.symm hp]
        simp only [List.map_cons]
        rw [if_neg (by simp [hb])]
        rw [List.lookup, hk]
        exact ih h

lemma lookup_append_single (k : String) (r : Response) :
    ∀ m : List (String × Response), m.any (fun p => p.1 == k) = false →
      (m ++ [(k, r)]).lookup k = some r := by
  intro m
  induction m with
  | nil => simp [List.lookup]
  | cons p tl ih =>
      intro h
      simp only [List.any_cons, Bool.or_eq_false_iff] at h
      simp only [List.cons_append, List.lookup]
      have : (k == p.1) = false := by
        have := h.1
        simp only [beq_eq_false_iff_ne] at this ⊢
        exact Ne.symm this
      rw [this]
      exact ih h.2

lemma storeInsert_lookup_self (m : List (String × Response)) (k : String) (r : Response) :
    (storeInsert m k r).lookup k = some r := by
  unfold storeInsert
  by_cases h : m.any (fun p => p.1 == k) = true
  · rw [if_pos h]
    exact lookup_map_replace k r m h
  · rw [if_neg h]
    exact lookup_append_single k r m (Bool.not_eq_true _ ▸ eq_false_of_ne_true h)

lemma storeInsert_all (p : String × Response → Bool) (m : List (String × Response))
    (k : String) (r : Response) (hm : m.all p = true) (hr : p (k, r) = true) :
    (storeInsert m k r).all p = true := by
  unfold storeInsert
  split
  · simp only [List.all_map, List.all_eq_true] at *
    intro x hx
    by_cases hk : x.1 = k
    · simp [Function.comp, hk, hr]
    · simp only [Function.comp]
      have : (x.1 == k) = false := by simp [hk]
      simp only [this, if_false]
      exact hm x hx
  · simp [List.all_append, hm, hr]

lemma topEntry_isSome (l : List (String × JSValue)) (h : l ≠ []) :
    ∃ pr, topEntry l = some pr := by
  cases l with
  | nil => exact absurd rfl h
  | cons p tl =>
      rw [topEntry]
      cases htl : topEntry tl with
      | none => exact ⟨p, rfl⟩
      | some q =>
          by_cases hq : jsNumVal q.2 > jsNumVal p.2
      
          · exact ⟨q, by simp [hq]⟩
          · exact ⟨p, by simp [hq]⟩

lemma topEntry_max (l : List (String × JSValue)) (pr : String × JSValue)
    (h : topEntry l = some pr) : pr ∈ l ∧ ∀ q_ ∈ l, jsNumVal q_.2 ≤ jsNumVal pr.2 := by
  induction l generalizing pr with
  | nil => simp [topEntry] at h
  | cons p tl ih =>
      rw [topEntry] at h
      cases htl : topEntry tl with
      | none =>
          rw [htl] at h
          dsimp only at h
          have hnil : tl = [] := by
            cases tl with
            | nil => rfl
            | cons a tb =>
                exfalso
                obtain ⟨pr2, hpr2⟩ := topEntry_isSome (a :: tb) (by simp)
                rw [hpr2] at htl
                exact Option.noConfusion htl
          simp only [Option.some.injEq] at h
          subst h
          subst hnil
          simp
      | some q =>
          rw [htl] at h
          dsimp only at h
          obtain ⟨hqmem, hqmax⟩ := ih q htl
          by_cases hcmp : jsNumVal q.2 > jsNumVal p.2
          · rw [if_pos hcmp] at h
            simp only [Option.some.injEq] at h
            subst h
            refine ⟨List.mem_cons_of_mem _ hqmem, ?_⟩
            intro x hx
            rcases List.mem_cons.mp hx with hx | hx
            · subst hx; omega
            · exact hqmax x hx
          · rw [if_neg hcmp] at h
            simp only [Option.some.injEq] at h
            subst h
            refine ⟨List.mem_cons_self _ _, ?_⟩
            intro x hx
            rcases List.mem_cons.mp hx with hx | hx
            · subst hx; omega
            · have := hqmax x hx; omega

lemma getField_ok (v : JSValue) (key : String) (h1 : v ≠ .null) (h2 : v ≠ .undefined) :
    ∃ w, getField v key = .ok w := by
  cases v with
  | null => exact absurd rfl h1
  | undefined => exact absurd rfl h2
  | obj fields =>
      rw [getField]
      cases fields.lookup key with
      | some w => exact ⟨w, rfl⟩
      | none => exact ⟨.undefined, rfl⟩
  | bool b => exact ⟨.undefined, rfl⟩
  | num n => exact ⟨.undefined, rfl⟩
  | str s => exact ⟨.undefined, rfl⟩
  | arr xs => exact ⟨.undefined, rfl⟩

/-! ## Shared concrete fixtures -/

/-- A two-step survey definition used to instantiate theorems. -/
def demoDef : SurveyDefinition :=
  { id := .str "demo", title := .str "Demo survey",
    steps := [ { id := "s1", questions := none }, { id := "s2", questions := none } ] }

/-- A freshly loaded engine state holding `demoDef`. -/
def demoLoaded : SurveyState :=
  { definition := some demoDef, currentStepIndex := 0, responses := [], isLoaded := true }

lemma demoLoaded_wf : stateWF demoLoaded := by
  constructor
  · intro h
    simp [demoLoaded] at h
  · intro _
    exact ⟨demoDef, rfl, by simp [demoDef], by simp [demoLoaded], by simp [demoDef, demoLoaded]⟩

/-! ## C9: out-of-range navigation is rejected without state change -/

/-- C9: for every engine state and every index that is negative, at or past
the end of the loaded steps, or requested while no survey is loaded,
`goToStep` returns false and returns the state unchanged. -/
theorem c9_goToStep_out_of_bounds_rejected (s : SurveyState) (i : Int)
    (h : s.isLoaded = false ∨ i < 0 ∨ numSteps s ≤ i) :
    goToStep s i = (false, s) := by
  unfold goToStep
  rcases h with h | h | h
  · simp [h]
  · simp [h]
  · have : i ≥ numSteps s := h
    simp [this]

/-- C9 witness: `goToStep(-1)` on a loaded two-step survey fails and leaves
the state untouched. -/
theorem c9_goToStep_out_of_bounds_rejected_witness :
    goToStep demoLoaded (-1) = (false, demoLoaded) :=
  c9_goToStep_out_of_bounds_rejected demoLoaded (-1) (Or.inr (Or.inl (by norm_num)))

/-! ## C10: submission precondition and delegation -/

/-- C10: `submitSurvey` throws exactly when no survey is loaded or the
response map is empty (nothing is delegated in that case, and the function
never writes the engine state); on success the delegated payload carries
the entire response-store snapshot and the completion timestamp. -/
theorem c10_submit_empty_iff (s : SurveyState) (claims : Option IdClaims) (now : String) :
    ((submitSurvey s claims now = .error ()) ↔ (s.isLoaded = false ∨ s.responses = [])) ∧
    (∀ p, submitSurvey s claims now = .ok p →
       p.responses = s.responses ∧ p.completedAt = now) := by
  unfold submitSurvey
  by_cases h1 : s.isLoaded
  · by_cases h2 : s.responses = []
    · simp [h1, h2]
    · have he : s.responses.isEmpty = false := by
        cases hr : s.responses with
        | nil => exact absurd hr h2
        | cons a tl => simp [List.isEmpty]
      constructor
      · simp [h1, he, h2]
      · intro p hp
        simp only [h1, he, Bool.not_true, Bool.or_self, Bool.false_eq_true, if_false] at hp
        simp only [Except.ok.injEq] at hp
        rw [← hp]
        exact ⟨rfl, rfl⟩
  · constructor
    · simp [h1]
    · intro p hp
      simp [h1] at hp

/-- C10 witness: submitting with no survey loaded fails with the
empty-submission error. -/
theorem c10_submit_empty_iff_witness :
    submitSurvey initialState none "now" = .error () :=
  (c10_submit_empty_iff initialState none "now").1.mpr (Or.inl rfl)

/-! ## C8: the step index stays in bounds -/

lemma stateWF_responses (s : SurveyState) (m : List (String × Response))
    (h : stateWF s) : stateWF { s with responses := m } := h

lemma numSteps_of_def {s : SurveyState} {d : SurveyDefinition}
    (hd : s.definition = some d) : numSteps s = d.steps.length := by
  unfold numSteps stepsOf
  rw [hd]

lemma goToStep_wf (s : SurveyState) (i : Int) (h : stateWF s) :
    stateWF (goToStep s i).2 := by
  unfold goToStep
  split
  · exact h
  next hc =>
    have hL : s.isLoaded = true := by
      by_contra hL2
      simp only [Bool.not_eq_true] at hL2
      exact hc (by simp [hL2])
    have hge : 0 ≤ i := by
      by_contra hge2
      push_neg at hge2
      exact hc (by simp [hge2])
    have hlt : i < numSteps s := by
      by_contra hlt2
      push_neg at hlt2
      exact hc (by simp [ge_iff_le, hlt2])
    obtain ⟨d, hd, hne, _, _⟩ := h.2 hL
    constructor
    · intro habs
      rw [hL] at habs
      exact absurd habs (by simp)
    · intro _
      refine ⟨d, hd, hne, hge, ?_⟩
      show i < (d.steps.length : Int)
      have := numSteps_of_def hd
      omega

lemma saveResponse_wf (s : SurveyState) (qid : String) (v : JSValue)
    (cm : Option String) (now : String) (h : stateWF s) :
    stateWF (saveResponse s qid v cm now).2 := by
  unfold saveResponse
  split
  · exact h
  · exact stateWF_responses s _ h

lemma clearResponses_wf (s : SurveyState) (h : stateWF s) :
    stateWF (clearResponses s) := by
  constructor
  · intro hL
    exact ⟨rfl, (h.1 hL).2⟩
  · intro hL
    obtain ⟨d, hd, hne, _, _⟩ := h.2 hL
    refine ⟨d, hd, hne, le_refl 0, ?_⟩
    show (0 : Int) < (d.steps.length : Int)
    have : d.steps.length ≠ 0 := by
      intro hz
      exact hne (List.length_eq_zero.mp hz)
    omega

lemma restoreStepSlot_wf (s : SurveyState) (st : Storage) (h : stateWF s) :
    stateWF (restoreStepSlot s st) := by
  unfold restoreStepSlot
  cases st.stepSlot with
  | none => exact h
  | some txt =>
      dsimp only
      cases parseIntJS txt with
      | none => exact h
      | some k =>
          dsimp only
          split
          next hc =>
            simp only [Bool.and_eq_true, decide_eq_true_eq, Option.isSome_iff_exists] at hc
            obtain ⟨⟨hk0, d, hd⟩, hklt⟩ := hc
            constructor
            · intro hL
              have := (h.1 hL).2
              rw [this] at hd
              exact absurd hd (by simp)
            · intro hL
              obtain ⟨d2, hd2, hne, _, _⟩ := h.2 hL
              rw [hd] at hd2
              obtain rfl : d = d2 := by injection hd2
              refine ⟨d, hd, hne, hk0, ?_⟩
              show k < (d.steps.length : Int)
              have := numSteps_of_def hd
              omega
          · exact h

lemma restoreProgress_wf (s : SurveyState) (st : Storage) (h : stateWF s) :
    stateWF (restoreProgress s st) := by
  unfold restoreProgress
  have h1 := restoreStepSlot_wf s st h
  cases st.respSlot with
  | none => exact h1
  | some r =>
      cases r with
      | ok m => exact stateWF_responses _ m h1
      | error e => exact h1

lemma loadSurveyDefinition_wf (s : SurveyState) (d : SurveyDefinition) (st : Storage)
    (h : stateWF s) (hL : s.isLoaded = false) (hne : d.steps ≠ []) :
    stateWF (loadSurveyDefinition s d st) := by
  unfold loadSurveyDefinition
  apply restoreProgress_wf
  constructor
  · intro habs
    exact absurd habs (by simp)
  · intro _
    refine ⟨d, rfl, hne, ?_, ?_⟩
    · show (0 : Int) ≤ s.currentStepIndex
      have := (h.1 hL).1
      omega
    · show s.currentStepIndex < (d.steps.length : Int)
      have h0 := (h.1 hL).1
      have : d.steps.length ≠ 0 := by
        intro hz
        exact hne (List.length_eq_zero.mp hz)
      omega

lemma restore_adoption (s : SurveyState) (st : Storage) :
    (restoreProgress s st).currentStepIndex = s.currentStepIndex ∨
    (∃ txt k, st.stepSlot = some txt ∧ parseIntJS txt = some k ∧
      0 ≤ k ∧ k < numSteps s ∧ (restoreProgress s st).currentStepIndex = k) := by
  have hresp : (restoreProgress s st).currentStepIndex =
      (restoreStepSlot s st).currentStepIndex := by
    unfold restoreProgress
    cases st.respSlot with
    | none => rfl
    | some r => cases r with
      | ok m => rfl
      | error e => rfl
  rw [hresp]
  unfold restoreStepSlot
  cases hslot : st.stepSlot with
  | none => left; rfl
  | some txt =>
      dsimp only
      cases hparse : parseIntJS txt with
      | none => left; rfl
      | some k =>
          dsimp only
          split
          next hc =>
            simp only [Bool.and_eq_true, decide_eq_true_eq] at hc
            right
            exact ⟨txt, k, rfl, hparse, hc.1.1, hc.2, rfl⟩
          · left; rfl

/-- C8: once a survey with a non-empty steps array is loaded the current step
index lies in `[0, steps.length)`, and every engine operation preserves this
well-formedness: `goToStep` (hence `nextStep`/`prevStep`) only assigns
in-bounds indices, `saveResponse` leaves the index alone, `clearResponses`
resets it to 0, an initial load of a non-empty survey establishes it, and a
persisted step index is adopted by the restore path only when it parses to an
integer in bounds for the currently held definition. -/
theorem c8_step_index_invariant (s : SurveyState) (i : Int) (qid : String)
    (v : JSValue) (cm : Option String) (now : String) (st : Storage)
    (d : SurveyDefinition) (h : stateWF s) :
    stateWF (goToStep s i).2 ∧ stateWF (nextStep s).2 ∧ stateWF (prevStep s).2 ∧
    stateWF (saveResponse s qid v cm now).2 ∧ stateWF (clearResponses s) ∧
    stateWF (restoreProgress s st) ∧
    (s.isLoaded = false → d.steps ≠ [] → stateWF (loadSurveyDefinition s d st)) ∧
    (clearResponses s).currentStepIndex = 0 ∧
    ((restoreProgress s st).currentStepIndex = s.currentStepIndex ∨
      (∃ txt k, st.stepSlot = some txt ∧ parseIntJS txt = some k ∧
        0 ≤ k ∧ k < numSteps s ∧ (restoreProgress s st).currentStepIndex = k)) :=
  ⟨goToStep_wf s i h, goToStep_wf s _ h, goToStep_wf s _ h,
   saveResponse_wf s qid v cm now h, clearResponses_wf s h,
   restoreProgress_wf s st h,
   fun hL hne => loadSurveyDefinition_wf s d st h hL hne,
   rfl, restore_adoption s st⟩

/-- C8 witness: the invariant holds of the loaded demo state and is kept by
a concrete `goToStep 1`. -/
theorem c8_step_index_invariant_witness :
    stateWF demoLoaded ∧ stateWF (goToStep demoLoaded 1).2 :=
  ⟨demoLoaded_wf,
   (c8_step_index_invariant demoLoaded 1 "q1" (.str "x") none "t"
      { stepSlot := none, respSlot := none } demoDef demoLoaded_wf).1⟩

/-! ## C1: a hidden required question blocks the Next action -/

/-- A single visibility rule of type `answered` referencing `target`. -/
def answeredRule (target : String) : ConditionRule :=
  { questionId := target, ctype := "answered", value := .undefined,
    threshold := none, optionId := .undefined }

/-- A required question shown only once `q1` has been answered. -/
def c1Hidden : Question :=
  { id := "q2", required := true,
    conditions := some { operator := .str "and", rules := some [answeredRule "q1"] } }

/-- A two-step survey whose first step holds only the conditionally hidden
required question. -/
def c1Def : SurveyDefinition :=
  { id := .str "c1-survey", title := .undefined,
    steps := [ { id := "s1", questions := some [c1Hidden] },
               { id := "s2", questions := some [] } ] }

/-- The engine state right after loading `c1Def` with no saved progress:
step 0, empty response store. -/
def c1State : SurveyState :=
  { definition := some c1Def, currentStepIndex := 0, responses := [], isLoaded := true }

/-- C1: with no response saved, `q2` is invisible (`shouldShowQuestion`
false), yet the source's `validateCurrentStep` fails on it and the Next
action refuses to advance — while the spec's visibility-filtered validation
passes and `nextStep` itself would move to step 1. The code contradicts the
spec's validation gate: a hidden required question does block navigation. -/
theorem c1_hidden_required_blocks_next :
    shouldShowQuestionE c1State.responses c1Hidden = .ok false ∧
    validateCurrentStep c1State = false ∧
    handleNextStep c1State = (false, c1State) ∧
    validateCurrentStepSpec c1State = true ∧
    (nextStep c1State).1 = true ∧
    (nextStep c1State).2.currentStepIndex = 1 :=
  ⟨rfl, rfl, rfl, rfl, rfl, rfl⟩

/-! ## C6: corrupt persisted responses during load -/

lemma restoreStepSlot_responses (s : SurveyState) (st : Storage) :
    (restoreStepSlot s st).responses = s.responses := by
  unfold restoreStepSlot
  cases st.stepSlot with
  | none => rfl
  | some txt =>
      dsimp only
      cases parseIntJS txt with
      | none => rfl
      | some k =>
          dsimp only
          split <;> rfl

lemma restoreStepSlot_fresh (d : SurveyDefinition) (st : Storage) :
    (restoreStepSlot
        { definition := some d, currentStepIndex := 0, responses := [], isLoaded := true }
        st).currentStepIndex =
      (match st.stepSlot with
       | none => 0
       | some txt =>
           match parseIntJS txt with
           | none => 0
           | some k => if 0 ≤ k ∧ k < (d.steps.length : Int) then k else 0) := by
  unfold restoreStepSlot
  cases st.stepSlot with
  | none => rfl
  | some txt =>
      dsimp only
      cases parseIntJS txt with
      | none => rfl
      | some k =>
          dsimp only
          split
          next hc =>
            simp only [Bool.and_eq_true, decide_eq_true_eq] at hc
            rw [if_pos ⟨hc.1.1, hc.2⟩]
          next hc =>
            have hneg : ¬(0 ≤ k ∧ k < (d.steps.length : Int)) := by
              intro hkk
              exact hc (by
                simp only [Bool.and_eq_true, decide_eq_true_eq]
                exact ⟨⟨hkk.1, rfl⟩, hkk.2⟩)
            rw [if_neg hneg]

/-- C6 (amended): loading a survey over a corrupt persisted responses slot
does not throw and leaves the response map empty, but the current step index
is not unconditionally 0: the step slot has already been adopted by the time
the responses parse fails, so the index is whatever in-bounds integer the
step slot parsed to, and 0 otherwise. -/
theorem c6_corrupt_responses_amended (d : SurveyDefinition) (slot : Option String) :
    (loadSurveyDefinition initialState d
        { stepSlot := slot, respSlot := some (.error ()) }).responses = [] ∧
    (loadSurveyDefinition initialState d
        { stepSlot := slot, respSlot := some (.error ()) }).currentStepIndex =
      (match slot with
       | none => 0
       | some txt =>
           match parseIntJS txt with
           | none => 0
           | some k => if 0 ≤ k ∧ k < (d.steps.length : Int) then k else 0) := by
  constructor
  · show (restoreStepSlot
        { definition := some d, currentStepIndex := 0, responses := [], isLoaded := true }
        { stepSlot := slot, respSlot := some (.error ()) }).responses = []
    rw [restoreStepSlot_responses]
  · exact restoreStepSlot_fresh d { stepSlot := slot, respSlot := some (.error ()) }

/-- A two-step definition used by the C6 counterexample. -/
def c6Def : SurveyDefinition :=
  { id := .undefined, title := .undefined,
    steps := [ { id := "a", questions := none }, { id := "b", questions := none } ] }

/-- C6 counterexample: with the persisted step slot holding "1" and a
corrupt responses slot, the load finishes with empty responses but at step
index 1 — the claim asserts the index would be 0 regardless of the step
slot. -/
theorem c6_corrupt_responses_counterexample :
    (loadSurveyDefinition initialState c6Def
        { stepSlot := some "1", respSlot := some (.error ()) }).responses = [] ∧
    (loadSurveyDefinition initialState c6Def
        { stepSlot := some "1", respSlot := some (.error ()) }).currentStepIndex = 1 :=
  ⟨rfl, rfl⟩

/-! ## C5: no blank comments in the store -/

/-- C5 (amended): `saveResponse` never stores a present-but-blank comment —
a null, empty, or whitespace-only comment argument leaves the comment key
absent — and the navigation and clearing operations preserve the
no-blank-comment property of the store; the restore-from-storage path,
however, adopts persisted responses verbatim and is exempt from the
invariant (see the counterexample). -/
theorem c5_no_blank_comment_preserved (s : SurveyState) (qid : String) (v : JSValue)
    (cm : Option String) (now : String) (i : Int)
    (h : noBlankComments s = true) :
    noBlankComments (saveResponse s qid v cm now).2 = true ∧
    noBlankComments (clearResponses s) = true ∧
    noBlankComments (goToStep s i).2 = true ∧
    noBlankComments (nextStep s).2 = true ∧
    noBlankComments (prevStep s).2 = true := by
  have hgo : ∀ j : Int, noBlankComments (goToStep s j).2 = true := by
    intro j
    unfold goToStep
    split
    · exact h
    · exact h
  refine ⟨?_, rfl, hgo i, hgo _, hgo _⟩
  unfold saveResponse
  split
  · exact h
  · refine storeInsert_all respOkB s.responses qid _ h ?_
    cases cm with
    | none => rfl
    | some t =>
        by_cases hb : isBlank t = true
        · simp [respOkB, hb]
        · have hb2 : isBlank t = false := by
            revert hb
            cases isBlank t <;> simp
          simp [respOkB, hb2]

/-- C5 witness: saving with a whitespace-only comment argument on the demo
state keeps the store free of blank comments. -/
theorem c5_no_blank_comment_preserved_witness :
    noBlankComments demoLoaded = true ∧
    noBlankComments (saveResponse demoLoaded "q1" (.str "hi") (some " ") "t").2 = true :=
  ⟨rfl, (c5_no_blank_comment_preserved demoLoaded "q1" (.str "hi") (some " ") "t" 0 rfl).1⟩

/-- A one-step definition for the C5 counterexample. -/
def c5Def : SurveyDefinition :=
  { id := .undefined, title := .undefined, steps := [ { id := "a", questions := none } ] }

/-- A storage snapshot whose persisted responses hold a present-but-empty
comment key (e.g. written by another producer). -/
def c5Storage : Storage :=
  { stepSlot := none,
    respSlot := some (.ok [("q1", { value := .str "x", comment := some "", timestamp := "t" })]) }

/-- C5 counterexample: restoring from storage adopts persisted responses
verbatim, so a response with an empty-string comment key enters the store
through a reachable load — the claimed invariant fails on the
restore-from-storage path. -/
theorem c5_no_blank_comment_counterexample :
    noBlankComments initialState = true ∧
    noBlankComments (loadSurveyDefinition initialState c5Def c5Storage) = false :=
  ⟨rfl, rfl⟩

/-! ## C2: the `answered` rule versus the required-answer rule -/

/-- A question visible exactly when a single `answered` rule on `target`
holds (operator key absent, defaulting to AND). -/
def answeredOnlyQuestion (qid target : String) : Question :=
  { id := qid, required := false,
    conditions := some { operator := .undefined, rules := some [answeredRule target] } }

lemma evaluateCondition_answered (resp : List (String × Response)) (target : String)
    (ht : target ≠ "") :
    evaluateCondition resp (answeredRule target) =
      .ok (match resp.lookup target with
           | none => false
           | some r =>
               match r.value with
               | .null => false
               | .undefined => false
               | .str t => !(isBlank t)
               | _ => true) := by
  have hbeq : (target == "") = false := by simp [ht]
  cases hlk : resp.lookup target with
  | none => simp [evaluateCondition, answeredRule, hbeq, hlk]
  | some r =>
      cases hv : r.value <;>
        simp [evaluateCondition, answeredRule, hbeq, hlk, hv, jsEq]

lemma shouldShow_answeredOnly (resp : List (String × Response)) (qid target : String)
    (ht : target ≠ "") :
    shouldShowQuestionE resp (answeredOnlyQuestion qid target) =
      .ok (match resp.lookup target with
           | none => false
           | some r =>
               match r.value with
               | .null => false
               | .undefined => false
               | .str t => !(isBlank t)
               | _ => true) := by
  unfold shouldShowQuestionE answeredOnlyQuestion
  simp only [List.mapM_cons, List.mapM_nil, evaluateCondition_answered resp target ht]
  generalize (match resp.lookup target with
      | none => false
      | some r =>
          match r.value with
          | .null => false
          | .undefined => false
          | .str t => !(isBlank t)
          | _ => true) = b
  cases b <;> rfl

/-- C2 (amended): for a question with a single `answered` rule on `target`,
`shouldShowQuestion` is false with no response, true after saving a non-empty
value, and false again after saving an empty string — but saving an empty
array leaves it TRUE: the evaluator's `answered` check tests only
null/undefined and blank strings, diverging from
`areAllRequiredQuestionsAnswered`, which additionally rejects empty
arrays. -/
theorem c2_answered_rule_divergence (s : SurveyState) (qid target : String)
    (v : JSValue) (now : String) (ht : target ≠ "") (hL : s.isLoaded = true) :
    (s.responses.lookup target = none →
      shouldShowQuestionE s.responses (answeredOnlyQuestion qid target) = .ok false) ∧
    (v ≠ .null → v ≠ .undefined → (∀ t, v = .str t → isBlank t = false) →
      shouldShowQuestionE (saveResponse s target v none now).2.responses
        (answeredOnlyQuestion qid target) = .ok true) ∧
    (shouldShowQuestionE (saveResponse s target (.str "") none now).2.responses
        (answeredOnlyQuestion qid target) = .ok false) ∧
    (shouldShowQuestionE (saveResponse s target (.arr []) none now).2.responses
        (answeredOnlyQuestion qid target) = .ok true) ∧
    isAnsweredValue (.arr []) = false := by
  have hsave : ∀ w : JSValue,
      (saveResponse s target w none now).2.responses.lookup target =
        some { value := w, comment := none, timestamp := now } := by
    intro w
    unfold saveResponse
    have hnl : (!s.isLoaded) = false := by simp [hL]
    rw [if_neg (by simp [hnl])]
    exact storeInsert_lookup_self s.responses target _
  refine ⟨?_, ?_, ?_, ?_, rfl⟩
  · intro hlk
    rw [shouldShow_answeredOnly _ _ _ ht, hlk]
  · intro h1 h2 h3
    rw [shouldShow_answeredOnly _ _ _ ht, hsave v]
    cases v with
    | null => exact absurd rfl h1
    | undefined => exact absurd rfl h2
    | str t =>
        have := h3 t rfl
        simp [this]
    | bool b => rfl
    | num n => rfl
    | arr xs => rfl
    | obj fields => rfl
  · rw [shouldShow_answeredOnly _ _ _ ht, hsave (.str "")]
    rfl
  · rw [shouldShow_answeredOnly _ _ _ ht, hsave (.arr [])]

/-- C2 witness: on the demo state the rule is false before and true after a
non-blank string answer to `q1`. -/
theorem c2_answered_rule_divergence_witness :
    shouldShowQuestionE demoLoaded.responses (answeredOnlyQuestion "q2" "q1") = .ok false ∧
    shouldShowQuestionE (saveResponse demoLoaded "q1" (.str "yes") none "t").2.responses
      (answeredOnlyQuestion "q2" "q1") = .ok true := by
  have h := c2_answered_rule_divergence demoLoaded "q2" "q1" (.str "yes") "t"
    (by simp) rfl
  exact ⟨h.1 rfl, h.2.1 (by simp) (by simp) (fun t htv => by cases htv; rfl)⟩

/-- C2 counterexample: after saving an empty array as the answer of `q1`
(stored exactly as `{value: [], ...}`), `shouldShowQuestion` on the
single-`answered`-rule question is TRUE — the claim requires it to revert to
false, matching the required-answer rule, which indeed rejects the empty
array. -/
theorem c2_empty_array_counterexample :
    (saveResponse demoLoaded "q1" (.arr []) none "t").2.responses.lookup "q1" =
      some { value := .arr [], comment := none, timestamp := "t" } ∧
    shouldShowQuestionE (saveResponse demoLoaded "q1" (.arr []) none "t").2.responses
      (answeredOnlyQuestion "q2" "q1") = .ok true ∧
    isAnsweredValue (.arr []) = false :=
  ⟨rfl, rfl, rfl⟩

/-! ## C3: operator combination of rule results -/

/-- C3 (amended): with a non-empty rule list whose rules all evaluate
without throwing, the evaluator combines the results by the effective
operator: the code's AND operator (`"and"`) requires all rules true, OR
(`"or"`) requires at least one, and any unrecognized TRUTHY operator fails
open to true — but a falsy operator value (absent key or the empty string)
falls back to AND rather than failing open. -/
theorem c3_operator_combination (resp : List (String × Response)) (q : Question)
    (cg : ConditionGroup) (rules : List ConditionRule) (results : List Bool)
    (h1 : q.conditions = some cg) (h2 : cg.rules = some rules) (h3 : rules ≠ [])
    (h4 : rules.mapM (evaluateCondition resp) = Except.ok results) :
    shouldShowQuestionE resp q =
      .ok (if jsEq (if truthy cg.operator then cg.operator else .str "and")
              (.str "and") = true
           then results.all (fun r => r == true)
           else if jsEq (if truthy cg.operator then cg.operator else .str "and")
              (.str "or") = true
           then results.any (fun r => r == true)
           else true) := by
  cases rules with
  | nil => exact absurd rfl h3
  | cons r rs =>
      unfold shouldShowQuestionE
      rw [h1]
      dsimp only
      rw [h2]
      dsimp only
      rw [h4]
      by_cases ha : jsEq (if truthy cg.operator then cg.operator else .str "and")
          (.str "and") = true
      · simp [ha]
      · by_cases ho : jsEq (if truthy cg.operator then cg.operator else .str "and")
            (.str "or") = true
        · simp [ha, ho]
        · simp [ha, ho]

/-- A question combining one false-evaluating rule under the OR operator. -/
def c3QOr : Question :=
  { id := "q3", required := false,
    conditions := some { operator := .str "or", rules := some [answeredRule "q1"] } }

/-- C3 witness: under OR with a single false rule the question is hidden,
by the combination theorem applied at a concrete store. -/
theorem c3_operator_combination_witness :
    shouldShowQuestionE [] c3QOr = .ok false := by
  have h := c3_operator_combination [] c3QOr
    { operator := .str "or", rules := some [answeredRule "q1"] }
    [answeredRule "q1"] [false] rfl rfl (by simp) rfl
  simpa using h

/-- A question whose condition group carries the empty string as operator. -/
def c3QEmptyOp : Question :=
  { id := "q4", required := false,
    conditions := some { operator := .str "", rules := some [answeredRule "q1"] } }

/-- C3 counterexample: the empty-string operator is unrecognized (neither
`"and"` nor `"or"`), yet being falsy it is defaulted to AND instead of
failing open — with its single rule false the evaluator returns false where
the claim's fail-open clause demands true. -/
theorem c3_operator_counterexample :
    shouldShowQuestionE [] c3QEmptyOp = .ok false :=
  rfl

/-! ## C4: the topRanked rule and the double-wrapped slider value -/

/-- A `topRanked` rule referencing `qid2` with the given `optionId`. -/
def topRule (qid2 : String) (opt : JSValue) : ConditionRule :=
  { questionId := qid2, ctype := "topRanked", value := .undefined,
    threshold := none, optionId := opt }

/-- C4 (amended): the `topRanked` rule reads `responseValue.value` — the
inner field of the double-wrapped shape the multiValueSlider renderer saves
(`{value: positions, comment}`). When that inner field is a non-empty
mapping, the rule is true exactly when the first key attaining the maximal
position equals `rule.optionId`; it is false when the inner mapping is
empty, when the referenced response is missing, and when `optionId` is
absent. -/
theorem c4_topRanked_wrapped (resp : List (String × Response)) (qid oid : String)
    (fields m : List (String × JSValue)) (r : Response)
    (hqid : qid ≠ "") (hoid : oid ≠ "")
    (hr : resp.lookup qid = some r) (hv : r.value = .obj fields)
    (hm : fields.lookup "value" = some (.obj m)) :
    (m ≠ [] → ∃ p, topEntry m = some p ∧ p ∈ m ∧
        (∀ q_ ∈ m, jsNumVal q_.2 ≤ jsNumVal p.2) ∧
        evaluateCondition resp (topRule qid (.str oid)) = .ok (p.1 == oid)) ∧
    (m = [] → evaluateCondition resp (topRule qid (.str oid)) = .ok false) ∧
    (∀ qid2, qid2 ≠ "" → resp.lookup qid2 = none →
      evaluateCondition resp (topRule qid2 (.str oid)) = .ok false) ∧
    (evaluateCondition resp (topRule qid .undefined) = .ok false) := by
  have hq : (qid == "") = false := by simp [hqid]
  have ho : ((oid == "") : Bool) = false := by simp [hoid]
  refine ⟨?_, ?_, ?_, ?_⟩
  · intro hmne
    obtain ⟨p, hp⟩ := topEntry_isSome m hmne
    obtain ⟨hmem, hmax⟩ := topEntry_max m p hp
    refine ⟨p, hp, hmem, hmax, ?_⟩
    have hlen : 0 < m.length := List.length_pos.mpr hmne
    simp [evaluateCondition, topRule, hq, ho, hr, hv, hm, hp, truthy, getField,
          entriesOf, jsEq, hlen]
    intro habs
    exact absurd habs hoid
  · intro hme
    subst hme
    simp [evaluateCondition, topRule, hq, ho, hr, hv, hm, truthy, getField, entriesOf]
  · intro qid2 hq2 hlk
    have hq2b : (qid2 == "") = false := by simp [hq2]
    simp [evaluateCondition, topRule, hq2b, hlk]
  · simp [evaluateCondition, topRule, hq, hr, hv, truthy]

/-- The `topRanked` rule on `q1` selecting option `b`. -/
def c4Rule : ConditionRule :=
  topRule "q1" (.str "b")

/-- A store where the response value IS the position mapping directly
(no wrapping). -/
def c4Unwrapped : List (String × Response) :=
  [("q1", { value := .obj [("a", .num 1), ("b", .num 2)],
            comment := none, timestamp := "t" })]

/-- C4 counterexample: with the stored response value literally a non-empty
mapping optionId → position whose maximal key is `b`, the rule evaluates to
FALSE (the claim requires true), because the code inspects the absent
`.value` field of that mapping. -/
theorem c4_topRanked_counterexample :
    evaluateCondition c4Unwrapped c4Rule = .ok false :=
  rfl

/-- A store holding the double-wrapped shape the slider renderer saves. -/
def c4Wrapped : List (String × Response) :=
  [("q1", { value := .obj [("value", .obj [("a", .num 1), ("b", .num 2)]),
                           ("comment", .str "")],
            comment := none, timestamp := "t" })]

/-- C4 witness: on the wrapped shape the rule is true for the maximal key. -/
theorem c4_topRanked_wrapped_witness :
    evaluateCondition c4Wrapped c4Rule = .ok true := by
  have h := (c4_topRanked_wrapped c4Wrapped "q1" "b"
      [("value", .obj [("a", .num 1), ("b", .num 2)]), ("comment", .str "")]
      [("a", .num 1), ("b", .num 2)]
      { value := .obj [("value", .obj [("a", .num 1), ("b", .num 2)]),
                       ("comment", .str "")], comment := none, timestamp := "t" }
      (by simp) (by simp) rfl rfl rfl).1 (by simp)
  obtain ⟨p, hp, _, _, heval⟩ := h
  have hpe : some p = some (("b" : String), JSValue.num 2) := by
    rw [← hp]
    rfl
  injection hpe with hpe2
  rw [hpe2] at heval
  exact heval

/-! ## C7: exceptions in the evaluator -/

lemma safeStore_value {resp : List (String × Response)} (h : safeStore resp = true)
    {k : String} {r : Response} (hr : resp.lookup k = some r) :
    r.value ≠ .null ∧ r.value ≠ .undefined := by
  have hmem := lookup_mem_pairs hr
  have hall := List.all_eq_true.mp h _ hmem
  constructor <;> intro hv <;> rw [hv] at hall <;> simp at hall

lemma anyIdChecked_ok (rv : JSValue) (h1 : rv ≠ .null) (h2 : rv ≠ .undefined)
    (ids : List JSValue) : ∃ b, anyIdChecked rv ids = .ok b := by
  induction ids with
  | nil => exact ⟨false, rfl⟩
  | cons o rest ih =>
      rw [anyIdChecked]
      obtain ⟨w, hw⟩ := getField_ok rv (jsKeyOf o) h1 h2
      rw [hw]
      by_cases hcond : (jsEq w (.bool true) || jsEq rv o) = true
      · exact ⟨true, by dsimp only; rw [if_pos hcond]⟩
      · obtain ⟨b, hb⟩ := ih
        exact ⟨b, by dsimp only; rw [if_neg hcond]; exact hb⟩

lemma evaluateCondition_ok (resp : List (String × Response))
    (h : safeStore resp = true) (c : ConditionRule) :
    ∃ b, evaluateCondition resp c = .ok b := by
  unfold evaluateCondition
  split
  · exact ⟨false, rfl⟩
  · dsimp only
    split
    · exact ⟨false, rfl⟩
    next hguard =>
      have hsome : c.ctype ≠ "answered" → ∃ r, resp.lookup c.questionId = some r := by
        intro hne
        rcases hlk : resp.lookup c.questionId with _ | r
        · exfalso
          apply hguard
          rw [hlk]
          simp [hne]
        · exact ⟨r, rfl⟩
      split
      -- answered
      · exact ⟨_, rfl⟩
      -- equals
      next heq =>
        obtain ⟨r, hr⟩ := hsome (by rw [heq]; simp)
        rw [hr]
        dsimp only
        obtain ⟨h1, h2⟩ := safeStore_value h hr
        by_cases hobj : typeofIsObject r.value = true
        · rw [if_pos hobj]
          obtain ⟨w, hw⟩ := getField_ok r.value "isOther" h1 h2
          rw [hw]
          dsimp only
          by_cases htr : truthy w = true
          · rw [if_pos htr]
            exact ⟨false, rfl⟩
          · rw [if_neg htr]
            exact ⟨_, rfl⟩
        · rw [if_neg hobj]
          exact ⟨_, rfl⟩
      -- notEquals
      · exact ⟨_, rfl⟩
      -- contains
      · split <;> exact ⟨_, rfl⟩
      -- greaterThan
      · split
        · exact ⟨false, rfl⟩
        · split <;> exact ⟨_, rfl⟩
      -- lessThan
      · split
        · exact ⟨false, rfl⟩
        · split <;> exact ⟨_, rfl⟩
      -- topRanked
      next heq =>
        by_cases hopt : (!truthy c.optionId) = true
        · rw [if_pos hopt]
          exact ⟨false, rfl⟩
        · rw [if_neg hopt]
          obtain ⟨r, hr⟩ := hsome (by rw [heq]; simp)
          rw [hr]
          dsimp only
          obtain ⟨h1, h2⟩ := safeStore_value h hr
          obtain ⟨w, hw⟩ := getField_ok r.value "value" h1 h2
          rw [hw]
          dsimp only
          by_cases htw : (!truthy w) = true
          · rw [if_pos htw]
            exact ⟨false, rfl⟩
          · rw [if_neg htw]
            split
            · split
              · split <;> exact ⟨_, rfl⟩
              · exact ⟨false, rfl⟩
            · exact ⟨false, rfl⟩
      -- optionChecked
      next heq =>
        by_cases hopt : (!truthy c.optionId) = true
        · rw [if_pos hopt]
          exact ⟨false, rfl⟩
        · rw [if_neg hopt]
          obtain ⟨r, hr⟩ := hsome (by rw [heq]; simp)
          rw [hr]
          dsimp only
          obtain ⟨h1, h2⟩ := safeStore_value h hr
          split
          · exact anyIdChecked_ok r.value h1 h2 _
          · by_cases hto : (truthy r.value && typeofIsObject r.value) = true
            · rw [if_pos hto]
              obtain ⟨w, hw⟩ := getField_ok r.value (jsKeyOf c.optionId) h1 h2
              rw [hw]
              exact ⟨_, rfl⟩
            · rw [if_neg hto]
              split <;> exact ⟨_, rfl⟩
      -- unknown type
      · exact ⟨false, rfl⟩


lemma mapM_evaluateCondition_ok (resp : List (String × Response))
    (h : safeStore resp = true) (rules : List ConditionRule) :
    ∃ res, rules.mapM (evaluateCondition resp) = .ok res := by
  induction rules with
  | nil => exact ⟨[], rfl⟩
  | cons r rs ih =>
      obtain ⟨b, hb⟩ := evaluateCondition_ok resp h r
      obtain ⟨res, hres⟩ := ih
      refine ⟨b :: res, ?_⟩
      rw [List.mapM_cons, hb, hres]
      rfl

/-- C7 (amended): the navigation operations and the required-answer checks
are total boolean functions (no throwing path exists in their embedding),
and the rule evaluator and `shouldShowQuestion` return a boolean without
throwing PROVIDED no stored response value is `null` or `undefined`; with a
stored null value an `equals`, `topRanked`, or array-`optionChecked` rule
dereferences it and throws (see the counterexample), so the claim's
unconditional never-throws statement fails. -/
theorem c7_evaluator_no_throw (resp : List (String × Response))
    (h : safeStore resp = true) :
    (∀ c : ConditionRule, evalOk (evaluateCondition resp c) = true) ∧
    (∀ q : Question, evalOk (shouldShowQuestionE resp q) = true) := by
  constructor
  · intro c
    obtain ⟨b, hb⟩ := evaluateCondition_ok resp h c
    rw [hb]
    rfl
  · intro q
    unfold shouldShowQuestionE
    rcases hq : q.conditions with _ | cg
    · rfl
    · dsimp only
      rcases hr2 : cg.rules with _ | rules
      · rfl
      · cases rules with
        | nil => rfl
        | cons r rs =>
            obtain ⟨res, hres⟩ := mapM_evaluateCondition_ok resp h (r :: rs)
            dsimp only
            rw [hres]
            dsimp only
            by_cases ha : jsEq (if truthy cg.operator then cg.operator else .str "and")
                (.str "and") = true
            · rw [if_pos ha]
              rfl
            · rw [if_neg ha]
              by_cases ho : jsEq (if truthy cg.operator then cg.operator else .str "and")
                  (.str "or") = true
              · rw [if_pos ho]
                rfl
              · rw [if_neg ho]
                rfl

/-- C7 witness: on a concrete store with no null/undefined values both the
rule evaluator and `shouldShowQuestion` return without throwing. -/
theorem c7_evaluator_no_throw_witness :
    evalOk (shouldShowQuestionE c4Wrapped (answeredOnlyQuestion "q2" "q1")) = true ∧
    evalOk (evaluateCondition c4Wrapped c4Rule) = true :=
  ⟨(c7_evaluator_no_throw c4Wrapped rfl).2 (answeredOnlyQuestion "q2" "q1"),
   (c7_evaluator_no_throw c4Wrapped rfl).1 c4Rule⟩

/-- An `equals` rule referencing `target` with expected value `v`. -/
def equalsRule (target : String) (v : JSValue) : ConditionRule :=
  { questionId := target, ctype := "equals", value := v,
    threshold := none, optionId := .undefined }

/-- A store holding a response whose saved value is null — exactly what the
comment-field blur handler saves when no prior response exists. -/
def c7NullStore : List (String × Response) :=
  [("q1", { value := .null, comment := none, timestamp := "t" })]

/-- A question guarded by an `equals` rule on the null-valued `q1`. -/
def c7Q : Question :=
  { id := "q2", required := false,
    conditions := some { operator := .undefined, rules := some [equalsRule "q1" (.str "yes")] } }

/-- C7 counterexample: with a stored null response value, the `equals` rule
evaluates `responseValue.isOther` on null (`typeof null === 'object'`) and
throws a TypeError, so `shouldShowQuestion` throws rather than returning a
boolean — refuting the claim's unconditional no-throw statement. -/
theorem c7_null_value_throws :
    shouldShowQuestionE c7NullStore c7Q = .error () ∧
    evaluateCondition c7NullStore (equalsRule "q1" (.str "yes")) = .error () :=
  ⟨rfl, rfl⟩
